import Mathlib

/-!
Shallow embedding of the template-loader / validator core of the
`copilot-instructions-templates` repository, together with proofs of the
specification claims about it.

Embedded source files:
* `src/utils/template-loader.ts` (frontmatter extraction, structure check,
  template records, filtering)  — namespace `Loader`
* `src/utils/validator.ts` (frontmatter / structure / template validation)
  — namespace `Validator`
* `scripts/validate-yaml.js` (fallback line-by-line frontmatter parser)
  — namespace `ValidateYaml`
* `scripts/check-structure.js` (structure validation with named missing
  sections) — namespace `CheckStructure`

JavaScript strings are modelled as Lean `String`s (lists of characters);
JavaScript's dynamically typed YAML values are modelled by `JsVal`.
-/

/-- The whitespace class of JavaScript's `\s` and `String.prototype.trim`. -/
def isJsSpace (c : Char) : Bool :=
  c = ' ' || c = '\t' || c = '\n' || c = '\r' || c.val = 0x0b || c.val = 0x0c ||
  c.val = 0xa0 || c.val = 0x1680 || (0x2000 ≤ c.val && c.val ≤ 0x200a) ||
  c.val = 0x2028 || c.val = 0x2029 || c.val = 0x202f || c.val = 0x205f ||
  c.val = 0x3000 || c.val = 0xfeff

/-- JavaScript `s.split(sep)` for a one-character separator, on a character
list: the (non-empty) list of separator-delimited segments; `""` splits to
`[""]`. -/
def splitSepList (sep : Char) (cs : List Char) : List (List Char) :=
  match cs with
  | [] => [[]]
  | c :: rest =>
    match splitSepList sep rest with
    | [] => [[]]
    | l :: ls => if c = sep then [] :: l :: ls else (c :: l) :: ls

/-- JavaScript `content.split('\n')`. -/
def jsSplitNewline (s : String) : List String :=
  (splitSepList '\n' s.data).map String.mk

/-- `String.prototype.trim` on a character list: drop whitespace at both ends. -/
def jsTrimList (cs : List Char) : List Char :=
  ((cs.dropWhile isJsSpace).reverse.dropWhile isJsSpace).reverse

/-- JavaScript `s.trim()`. -/
def jsTrim (s : String) : String :=
  String.mk (jsTrimList s.data)

/-- JavaScript `s.replace(/['"]/g, '')`: delete every quote character. -/
def stripQuotes (s : String) : String :=
  String.mk (s.data.filter (fun c => !(c = '\'' || c = '"')))

/-- A dynamically typed YAML value as produced by the frontmatter parsers:
either a scalar string or an array of strings. -/
inductive JsVal where
  | str (s : String)
  | arr (xs : List String)
deriving DecidableEq, Repr

namespace JsVal

/-- JavaScript truthiness of an optional YAML value (`undefined` and the empty
string are falsy; every array, including `[]`, is truthy). -/
def truthy : Option JsVal → Bool
  | none => false
  | some (.str s) => !s.isEmpty
  | some (.arr _) => true

/-- `Array.isArray` on an optional YAML value. -/
def isArr : Option JsVal → Bool
  | some (.arr _) => true
  | _ => false

/-- Length of an array value (`0` otherwise; only used behind `isArr`). -/
def arrLen : Option JsVal → Nat
  | some (.arr xs) => xs.length
  | _ => 0

end JsVal

/-- JavaScript truthiness of an optional string (`undefined` and `""` falsy). -/
def optTruthy : Option String → Bool
  | none => false
  | some s => !s.isEmpty

/-- Does `hay` contain `needle` as a contiguous substring
(JavaScript `String.prototype.includes` on character lists)? -/
def listContainsSub (needle : List Char) : List Char → Bool
  | [] => needle.isEmpty
  | c :: rest => needle.isPrefixOf (c :: rest) || listContainsSub needle rest

/-- JavaScript `tags.includes(tag)` on a dynamically typed `tags` value:
array membership for arrays, substring search for scalar strings, and a
thrown `TypeError` (modelled as `Except.error ()`) when `tags` is absent
(`undefined`), exactly as `undefined.includes(...)` throws at runtime. -/
def jsIncludes : Option JsVal → String → Except Unit Bool
  | some (.arr xs), t => .ok (xs.contains t)
  | some (.str s), t => .ok (listContainsSub t.data s.data)
  | none, _ => .error ()

/-- Modelled from the spec: does the record's tags value contain the tag?
(Total spec-side predicate: an absent tags value contains nothing.) -/
def tagValueContains : Option JsVal → String → Bool
  | some (.arr xs), t => xs.contains t
  | some (.str s), t => listContainsSub t.data s.data
  | none, _ => false

/-- Frontmatter record as it reaches the validator: every field may be
missing, and list-valued fields may dynamically hold a scalar instead
(mirrors the `Array.isArray` checks in `validator.ts`). -/
structure TemplateFrontmatter where
  title : Option String
  category : Option String
  tags : Option JsVal
  difficulty : Option String
  requires : Option JsVal
  combinableWith : Option JsVal
deriving DecidableEq, Repr

/-- The `Template` record built by `loadTemplate`. -/
structure Template where
  path : String
  filename : String
  id : String
  frontmatter : Option TemplateFrontmatter
  content : String
  hasValidStructure : Bool
deriving DecidableEq, Repr

/-- The `ValidationResult` record of `validator.ts`. -/
structure ValidationResult where
  valid : Bool
  errors : List String
  warnings : List String
deriving DecidableEq, Repr

section Patterns

/-- One token of the heading regexes: a case-insensitive literal character,
`\s*`, or `\s+`.  (Each regex is a sequence of such tokens; since every
literal is a non-space character, greedy whitespace matching without
backtracking is equivalent to the regex semantics.) -/
inductive RTok where
  | lit (c : Char)
  | ws0
  | ws1
deriving DecidableEq, Repr

/-- Anchored match of a token sequence at the start of a character list
(the regexes use `^` and no end anchor, and `.test` only asks for a match). -/
def rmatch : List RTok → List Char → Bool
  | [], _ => true
  | .lit _ :: _, [] => false
  | .lit c :: ps, x :: xs => x.toLower == c.toLower && rmatch ps xs
  | .ws0 :: ps, xs => rmatch ps (xs.dropWhile isJsSpace)
  | .ws1 :: _, [] => false
  | .ws1 :: ps, x :: xs => isJsSpace x && rmatch ps (xs.dropWhile isJsSpace)

/-- Literal characters of a pattern (matched case-insensitively). -/
def lits (s : String) : List RTok := s.data.map RTok.lit

/-- `/^##\s+Role\s*\/\s*Identity/i` -/
def rolePat : List RTok :=
  lits "##" ++ [RTok.ws1] ++ lits "role" ++ [RTok.ws0, RTok.lit '/', RTok.ws0] ++ lits "identity"

/-- `/^##\s+Context\s*&\s*Tech\s+Stack/i` -/
def contextPat : List RTok :=
  lits "##" ++ [RTok.ws1] ++ lits "context" ++ [RTok.ws0, RTok.lit '&', RTok.ws0] ++
    lits "tech" ++ [RTok.ws1] ++ lits "stack"

/-- `/^##\s+Project\s+Layout/i` -/
def layoutPat : List RTok :=
  lits "##" ++ [RTok.ws1] ++ lits "project" ++ [RTok.ws1] ++ lits "layout"

/-- `/^##\s+Coding\s+Standards/i` -/
def standardsPat : List RTok :=
  lits "##" ++ [RTok.ws1] ++ lits "coding" ++ [RTok.ws1] ++ lits "standards"

/-- `/^##\s+Workflow\s*&\s*Commands/i` -/
def workflowPat : List RTok :=
  lits "##" ++ [RTok.ws1] ++ lits "workflow" ++ [RTok.ws0, RTok.lit '&', RTok.ws0] ++
    lits "commands"

/-- `pattern.test(line.trim())` for one required-section pattern. -/
def sectionTest (pat : List RTok) (line : String) : Bool :=
  rmatch pat (jsTrim line).data

end Patterns

namespace Loader

/-- The five `foundSections` flags of `hasValidStructure`, one per entry of
`REQUIRED_SECTIONS`. -/
structure Found where
  role : Bool
  context : Bool
  layout : Bool
  standards : Bool
  workflow : Bool
deriving DecidableEq, Repr

/-- One iteration of `hasValidStructure`'s line loop: test every pattern
against the trimmed line and latch the flags. -/
def stepLine (f : Found) (line : String) : Found where
  role := f.role || sectionTest rolePat line
  context := f.context || sectionTest contextPat line
  layout := f.layout || sectionTest layoutPat line
  standards := f.standards || sectionTest standardsPat line
  workflow := f.workflow || sectionTest workflowPat line

/-- The full line loop over `content.split('\n')`, starting from all-false. -/
def scanLines (lines : List String) : Found :=
  lines.foldl stepLine ⟨false, false, false, false, false⟩

/-- `hasValidStructure` of `template-loader.ts`: all five flags set. -/
def hasValidStructure (content : String) : Bool :=
  let f := scanLines (jsSplitNewline content)
  f.role && f.context && f.layout && f.standards && f.workflow

end Loader

namespace CheckStructure

/-- `REQUIRED_SECTIONS` of `scripts/check-structure.js`: the reported names of
the five required headings, in pattern order. -/
def REQUIRED_SECTIONS : List String :=
  ["## Role / Identity", "## Context & Tech Stack", "## Project Layout",
   "## Coding Standards", "## Workflow & Commands"]

/-- The `missingSections` list built by `validateTemplate` in
`scripts/check-structure.js`: the names of the patterns whose flag stayed
false, in pattern order.  (The scan loop is identical to the loader's.) -/
def missingSections (content : String) : List String :=
  let f := Loader.scanLines (jsSplitNewline content)
  (if f.role then [] else ["## Role / Identity"]) ++
  (if f.context then [] else ["## Context & Tech Stack"]) ++
  (if f.layout then [] else ["## Project Layout"]) ++
  (if f.standards then [] else ["## Coding Standards"]) ++
  (if f.workflow then [] else ["## Workflow & Commands"])

/-- `validateTemplate` of `scripts/check-structure.js` (pure part, applied to
the file's contents): `{ valid: missingSections.length === 0, missingSections }`. -/
def validateTemplate (content : String) : Bool × List String :=
  let m := missingSections content
  (m.isEmpty, m)

end CheckStructure

namespace Validator

/-- `VALID_CATEGORIES` of `validator.ts`. -/
def VALID_CATEGORIES : List String := ["language", "framework", "role"]

/-- `VALID_DIFFICULTIES` of `validator.ts`. -/
def VALID_DIFFICULTIES : List String := ["beginner", "intermediate", "advanced"]

/-- `validateFrontmatter` of `validator.ts`.  Errors and warnings are listed
in the order the source pushes them (errors: title, category, tags,
difficulty; warnings: empty tags, requires, combinableWith). -/
def validateFrontmatter (frontmatter : Option TemplateFrontmatter) : ValidationResult :=
  match frontmatter with
  | none =>
    { valid := true, errors := [], warnings := ["No frontmatter found (will be added in Phase 4)"] }
  | some fm =>
    let errors :=
      (if !optTruthy fm.title then ["Missing required field: title"] else []) ++
      (if !optTruthy fm.category then ["Missing required field: category"]
       else if !(VALID_CATEGORIES.contains (fm.category.getD "")) then
         ["Invalid category: " ++ fm.category.getD "" ++ ". Must be one of: " ++
           String.intercalate ", " VALID_CATEGORIES]
       else []) ++
      (if !JsVal.truthy fm.tags then ["Missing required field: tags"]
       else if !JsVal.isArr fm.tags then ["Field \"tags\" must be an array"]
       else []) ++
      (if !optTruthy fm.difficulty then ["Missing required field: difficulty"]
       else if !(VALID_DIFFICULTIES.contains (fm.difficulty.getD "")) then
         ["Invalid difficulty: " ++ fm.difficulty.getD "" ++ ". Must be one of: " ++
           String.intercalate ", " VALID_DIFFICULTIES]
       else [])
    let warnings :=
      (if JsVal.truthy fm.tags && JsVal.isArr fm.tags && JsVal.arrLen fm.tags == 0 then
         ["Field \"tags\" is empty"] else []) ++
      (if JsVal.truthy fm.requires && !JsVal.isArr fm.requires then
         ["Field \"requires\" should be an array"] else []) ++
      (if JsVal.truthy fm.combinableWith && !JsVal.isArr fm.combinableWith then
         ["Field \"combinableWith\" should be an array"] else [])
    { valid := errors.isEmpty, errors := errors, warnings := warnings }

/-- `validateStructure` of `validator.ts`: one generic error (plus a warning
listing all required sections) when the precomputed structure flag is false. -/
def validateStructure (template : Template) : ValidationResult :=
  let errors := if !template.hasValidStructure then ["Missing one or more required sections"] else []
  let warnings :=
    if !template.hasValidStructure then
      ["Required sections: Role/Identity, Context & Tech Stack, Project Layout, Coding Standards, Workflow & Commands"]
    else []
  { valid := errors.isEmpty, errors := errors, warnings := warnings }

/-- `validateTemplate` of `validator.ts`: concatenate the frontmatter and
structure results; in strict mode append all warnings to the errors and
empty the warnings before computing `valid`. -/
def validateTemplate (template : Template) (strict : Bool) : ValidationResult :=
  let frontmatterResult := validateFrontmatter template.frontmatter
  let structureResult := validateStructure template
  let errors0 := frontmatterResult.errors ++ structureResult.errors
  let warnings0 := frontmatterResult.warnings ++ structureResult.warnings
  let errors := if strict then errors0 ++ warnings0 else errors0
  let warnings := if strict then [] else warnings0
  { valid := errors.isEmpty, errors := errors, warnings := warnings }

end Validator

/-- The spec's per-record classification of a validation result:
`invalid` (at least one error), `valid-with-warnings` (no errors, at least
one warning), `valid` (no errors, no warnings). -/
inductive Classification where
  | invalid
  | validWithWarnings
  | valid
deriving DecidableEq, Repr

/-- Classify a `ValidationResult` per the spec. -/
def classify (r : ValidationResult) : Classification :=
  if !r.errors.isEmpty then .invalid
  else if !r.warnings.isEmpty then .validWithWarnings
  else .valid

/-- "More valid" ordering on classifications: `invalid < valid-with-warnings
< valid`. -/
def Classification.rank : Classification → Nat
  | .invalid => 0
  | .validWithWarnings => 1
  | .valid => 2

namespace Loader

/-- Can `/\s*\n/` match at the start of `cs` (the tail of the closing
delimiter `\n---\s*\n`)?  With backtracking this holds exactly when the
leading whitespace run of `cs` contains a newline. -/
def closeTailMatches (cs : List Char) : Bool :=
  (cs.takeWhile isJsSpace).contains '\n'

/-- Does `/\n---\s*\n/` match at the start of `cs`? -/
def matchClose : List Char → Bool
  | c1 :: c2 :: c3 :: c4 :: rest =>
    c1 == '\n' && c2 == '-' && c3 == '-' && c4 == '-' && closeTailMatches rest
  | _ => false

/-- The lazy capture `([\s\S]*?)` of the frontmatter regex: the shortest
leading segment of `cs` after which the closing delimiter `\n---\s*\n`
matches (`none` if there is none).  Shortest-first search models the regex
engine's lazy quantifier. -/
def findCapture (cs : List Char) : Option (List Char) :=
  if matchClose cs then some []
  else
    match cs with
    | [] => none
    | c :: rest => (findCapture rest).map (fun l => c :: l)

/-- The candidate remainders after matching the opening `\s*\n` (which may
span blank lines, `\s` matching `\n`) against `cs`, longest whitespace run
first.  Greedy-first order models the regex engine's backtracking on `\s*`. -/
def openRemainders (cs : List Char) : List (List Char) :=
  (List.range (cs.takeWhile isJsSpace).length).reverse.filterMap
    (fun j => if cs.get? j = some '\n' then some (cs.drop (j + 1)) else none)

/-- `content.match(/^---\s*\n([\s\S]*?)\n---\s*\n/)`, returning the first
capture group: try the opening delimiter, then each backtracking choice for
the opening `\s*`, greedy-first, taking the lazily shortest capture. -/
def extractList (cs : List Char) : Option (List Char) :=
  match cs with
  | c1 :: c2 :: c3 :: rest =>
    if c1 == '-' && c2 == '-' && c3 == '-' then (openRemainders rest).findSome? findCapture
    else none
  | _ => none

/-- `extractFrontmatter` of `template-loader.ts`: the capture of the
frontmatter regex, or `null` when the regex does not match. -/
def extractFrontmatter (content : String) : Option String :=
  (extractList content.data).map String.mk

/-- JavaScript `s.replace(pat, repl)` with a plain-string pattern: replace
only the first occurrence (identity if there is none). -/
def jsReplaceFirstList (pat repl : List Char) (cs : List Char) : List Char :=
  if pat.isPrefixOf cs then repl ++ cs.drop pat.length
  else
    match cs with
    | [] => []
    | c :: rest => c :: jsReplaceFirstList pat repl rest

/-- JavaScript `s.replace(pat, repl)` on strings (plain-string pattern). -/
def jsReplaceFirst (s pat repl : String) : String :=
  String.mk (jsReplaceFirstList pat.data repl.data s.data)

/-- `path.basename(filePath)`: the last `/`-separated component. -/
def basename (filePath : String) : String :=
  ((splitSepList '/' filePath.data).map String.mk).getLastD ""

/-- The pure core of `loadTemplate` in `template-loader.ts`, applied to the
already-read file contents.  The `js-yaml` parse (`parseFrontmatter`, a
library call) is passed in as `parse`; note that an empty extracted
frontmatter string is falsy in JavaScript, so it is not parsed at all. -/
def loadTemplate (parse : String → Option TemplateFrontmatter)
    (filePath content : String) : Template :=
  let filename := basename filePath
  let id := jsReplaceFirst filename ".md" ""
  let frontmatterString := extractFrontmatter content
  let frontmatter :=
    match frontmatterString with
    | some s => if s.isEmpty then none else parse s
    | none => none
  { path := filePath, filename := filename, id := id, frontmatter := frontmatter,
    content := content, hasValidStructure := hasValidStructure content }

/-- The optional filter criteria of `filterTemplates` (each may be absent). -/
structure Filters where
  category : Option String := none
  tag : Option String := none
  difficulty : Option String := none
deriving DecidableEq, Repr

/-- The filter callback of `filterTemplates` in `template-loader.ts`.  A
record without frontmatter is rejected unconditionally; each criterion is
applied only when its value is truthy (in JavaScript an absent or
empty-string criterion is skipped, by `&&` short-circuit).  The tag check
`filters.tag && !template.frontmatter.tags.includes(filters.tag)` only
evaluates `includes` when `filters.tag` is truthy, and that call throws a
`TypeError` when the record's `tags` is absent; the thrown error is
`Except.error`. -/
def filterCallback (filters : Filters) (template : Template) : Except Unit Bool :=
  match template.frontmatter with
  | none => .ok false
  | some fm =>
    if optTruthy filters.category && !(fm.category == filters.category) then .ok false
    else
      match (if optTruthy filters.tag then
               match jsIncludes fm.tags (filters.tag.getD "") with
               | .error e => .error e
               | .ok inc => .ok (!inc)
             else .ok false : Except Unit Bool) with
      | .error e => .error e
      | .ok tagReject =>
        if tagReject then .ok false
        else if optTruthy filters.difficulty && !(fm.difficulty == filters.difficulty) then .ok false
        else .ok true

/-- `Array.prototype.filter` with a callback that may throw: elements are
visited in order and the first exception propagates out of the whole call. -/
def filterExcept {α : Type} (p : α → Except Unit Bool) : List α → Except Unit (List α)
  | [] => .ok []
  | x :: xs =>
    match p x with
    | .error e => .error e
    | .ok b =>
      match filterExcept p xs with
      | .error e => .error e
      | .ok ys => .ok (if b then x :: ys else ys)

/-- `filterTemplates` of `template-loader.ts`: filter the records with the
callback; a `TypeError` thrown by the callback escapes the call. -/
def filterTemplates (templates : List Template) (filters : Filters) :
    Except Unit (List Template) :=
  filterExcept (filterCallback filters) templates

/-- The domain on which the filter callback cannot throw: either no tag
criterion is supplied, or every record with metadata carries a tags value. -/
def tagsSafe (templates : List Template) (filters : Filters) : Bool :=
  !optTruthy filters.tag ||
    templates.all (fun t =>
      match t.frontmatter with
      | none => true
      | some fm => fm.tags.isSome)

end Loader

namespace ValidateYaml

/-- `line.indexOf(':')` combined with the two `substring` calls of the
fallback parser: the segments before and after the first colon, or `none`
when the line has no colon. -/
def colonSplit : List Char → Option (List Char × List Char)
  | [] => none
  | c :: rest =>
    if c = ':' then some ([], rest)
    else
      match colonSplit rest with
      | none => none
      | some (l, r) => some (c :: l, r)

/-- JavaScript object assignment `data[key] = v` on an insertion-ordered
record: overwrite in place if the key exists, else append. -/
def jsObjSet (data : List (String × JsVal)) (k : String) (v : JsVal) :
    List (String × JsVal) :=
  if data.any (fun p => p.1 == k) then
    data.map (fun p => if p.1 == k then (k, v) else p)
  else data ++ [(k, v)]

/-- The value processing of the fallback parser: a value starting with `[`
becomes `value.slice(1,-1).split(',')` with each element trimmed and
quote-stripped; any other value is quote-stripped (it was already trimmed). -/
def parseLineValue (value : String) : JsVal :=
  match value.data with
  | '[' :: _ =>
    .arr ((splitSepList ',' ((value.data.drop 1).dropLast)).map
      (fun cs => stripQuotes (jsTrim (String.mk cs))))
  | _ => .str (stripQuotes value)

/-- The fallback frontmatter parser of `scripts/validate-yaml.js` (the
`catch` branch): process the block line by line, skip lines without a
colon, split each remaining line at its first colon, trim the key, trim the
value and parse it. -/
def parseFrontmatterFallback (yamlString : String) : List (String × JsVal) :=
  (jsSplitNewline yamlString).foldl
    (fun data line =>
      match colonSplit line.data with
      | none => data
      | some (before, after) =>
        let key := jsTrim (String.mk before)
        let value := jsTrim (String.mk after)
        jsObjSet data key (parseLineValue value))
    []

end ValidateYaml

/-- Modelled from the spec: a record with metadata satisfies one supplied
criterion when the corresponding metadata field matches it (exact match for
category and difficulty, membership for tag); a criterion that is not
supplied (absent or empty, hence falsy) constrains nothing. -/
def recordSatisfiesCriteria (filters : Loader.Filters) (fm : TemplateFrontmatter) : Bool :=
  (!optTruthy filters.category || fm.category == filters.category) &&
  (!optTruthy filters.tag || tagValueContains fm.tags (filters.tag.getD "")) &&
  (!optTruthy filters.difficulty || fm.difficulty == filters.difficulty)

/-- Filter set `g` extends filter set `f`: every criterion supplied in `f`
is supplied with the same value in `g` (and `g` may supply more). -/
def Loader.Filters.Extends (g f : Loader.Filters) : Prop :=
  (optTruthy f.category = true → g.category = f.category) ∧
  (optTruthy f.tag = true → g.tag = f.tag) ∧
  (optTruthy f.difficulty = true → g.difficulty = f.difficulty)

instance (g f : Loader.Filters) : Decidable (g.Extends f) := by
  unfold Loader.Filters.Extends; infer_instance

/-- Modelled from the spec: "each line is split at the first colon" — the
segment strictly before the first colon and the segment strictly after it,
or `none` when the line contains no colon. -/
def splitAtFirstColon (cs : List Char) : Option (List Char × List Char) :=
  if ':' ∈ cs then some (cs.takeWhile (fun c => c ≠ ':'), (cs.dropWhile (fun c => c ≠ ':')).tail)
  else none

/-- Modelled from the spec: the key/value entry contributed by one line of a
frontmatter body — `none` for a line without a colon (skipped silently);
otherwise the trimmed left segment as key, and the trimmed right segment,
quote-stripped (or parsed as a bracketed comma-separated list), as value. -/
def lineEntry (line : String) : Option (String × JsVal) :=
  (splitAtFirstColon line.data).map
    (fun p => (jsTrim (String.mk p.1), ValidateYaml.parseLineValue (jsTrim (String.mk p.2))))

/-- Modelled from the spec (as amended): the document shape accepted by the
frontmatter regex — `---`, optional whitespace ending in a newline, the
body, then a newline, `---`, optional whitespace, and a newline.  The
delimiter lines may thus carry trailing whitespace (and the opening run may
span blank lines, since `\s` matches `\n`). -/
def FrontmatterShape (content : String) : Prop :=
  ∃ w₁ b w₂ rest, (∀ c ∈ w₁, isJsSpace c = true) ∧ (∀ c ∈ w₂, isJsSpace c = true) ∧
    content.data =
      '-' :: '-' :: '-' :: (w₁ ++ '\n' :: (b ++ '\n' :: '-' :: '-' :: '-' :: (w₂ ++ '\n' :: rest)))

namespace Fixtures

/-- A template record with absent metadata (e.g. a file with no frontmatter
block). -/
def tNoFrontmatter : Template :=
  { path := "templates/x.md", filename := "x.md", id := "x", frontmatter := none,
    content := "", hasValidStructure := false }

/-- A frontmatter record with an empty tags list and otherwise valid
required fields. -/
def fmEmptyTags : TemplateFrontmatter :=
  { title := some "T", category := some "language", tags := some (JsVal.arr []),
    difficulty := some "beginner", requires := none, combinableWith := none }

/-- A structurally valid template whose frontmatter is `fmEmptyTags`. -/
def tEmptyTags : Template :=
  { path := "templates/a.md", filename := "a.md", id := "a",
    frontmatter := some fmEmptyTags, content := "", hasValidStructure := true }

/-- A framework template whose parsed frontmatter lacks a `tags` value
(reachable: the loader casts `yaml.load`'s result without checking). -/
def tNoTags : Template :=
  { path := "templates/n.md", filename := "n.md", id := "n",
    frontmatter := some
      { title := some "N", category := some "framework", tags := none,
        difficulty := some "beginner", requires := none, combinableWith := none },
    content := "", hasValidStructure := true }

/-- A framework template tagged `frontend`. -/
def tFrontend : Template :=
  { path := "templates/f1.md", filename := "f1.md", id := "f1",
    frontmatter := some
      { title := some "F1", category := some "framework",
        tags := some (JsVal.arr ["frontend"]), difficulty := some "beginner",
        requires := none, combinableWith := none },
    content := "", hasValidStructure := true }

/-- A framework template tagged `backend`. -/
def tBackend : Template :=
  { path := "templates/f2.md", filename := "f2.md", id := "f2",
    frontmatter := some
      { title := some "F2", category := some "framework",
        tags := some (JsVal.arr ["backend"]), difficulty := some "advanced",
        requires := none, combinableWith := none },
    content := "", hasValidStructure := true }

end Fixtures

-- Characterization of the scan: each flag is set iff some line matches.

theorem foldl_stepLine_role (ls : List String) (f : Loader.Found) :
    (ls.foldl Loader.stepLine f).role = (f.role || ls.any (sectionTest rolePat)) := by
  induction ls generalizing f with
  | nil => simp
  | cons l ls ih =>
    simp only [List.foldl_cons, List.any_cons, ih, Loader.stepLine, Bool.or_assoc]

theorem foldl_stepLine_context (ls : List String) (f : Loader.Found) :
    (ls.foldl Loader.stepLine f).context = (f.context || ls.any (sectionTest contextPat)) := by
  induction ls generalizing f with
  | nil => simp
  | cons l ls ih =>
    simp only [List.foldl_cons, List.any_cons, ih, Loader.stepLine, Bool.or_assoc]

theorem foldl_stepLine_layout (ls : List String) (f : Loader.Found) :
    (ls.foldl Loader.stepLine f).layout = (f.layout || ls.any (sectionTest layoutPat)) := by
  induction ls generalizing f with
  | nil => simp
  | cons l ls ih =>
    simp only [List.foldl_cons, List.any_cons, ih, Loader.stepLine, Bool.or_assoc]

theorem foldl_stepLine_standards (ls : List String) (f : Loader.Found) :
    (ls.foldl Loader.stepLine f).standards = (f.standards || ls.any (sectionTest standardsPat)) := by
  induction ls generalizing f with
  | nil => simp
  | cons l ls ih =>
    simp only [List.foldl_cons, List.any_cons, ih, Loader.stepLine, Bool.or_assoc]

theorem foldl_stepLine_workflow (ls : List String) (f : Loader.Found) :
    (ls.foldl Loader.stepLine f).workflow = (f.workflow || ls.any (sectionTest workflowPat)) := by
  induction ls generalizing f with
  | nil => simp
  | cons l ls ih =>
    simp only [List.foldl_cons, List.any_cons, ih, Loader.stepLine, Bool.or_assoc]

theorem scanLines_role (ls : List String) :
    (Loader.scanLines ls).role = ls.any (sectionTest rolePat) := by
  simp [Loader.scanLines, foldl_stepLine_role]

theorem scanLines_context (ls : List String) :
    (Loader.scanLines ls).context = ls.any (sectionTest contextPat) := by
  simp [Loader.scanLines, foldl_stepLine_context]

theorem scanLines_layout (ls : List String) :
    (Loader.scanLines ls).layout = ls.any (sectionTest layoutPat) := by
  simp [Loader.scanLines, foldl_stepLine_layout]

theorem scanLines_standards (ls : List String) :
    (Loader.scanLines ls).standards = ls.any (sectionTest standardsPat) := by
  simp [Loader.scanLines, foldl_stepLine_standards]

theorem scanLines_workflow (ls : List String) :
    (Loader.scanLines ls).workflow = ls.any (sectionTest workflowPat) := by
  simp [Loader.scanLines, foldl_stepLine_workflow]

example : Loader.hasValidStructure
    "## role/identity\n##   Context&Tech Stack\n## PROJECT LAYOUT\n##\tCoding   Standards\n## Workflow & Commands" = true := by
  decide

example : Loader.hasValidStructure "## Role / Identity\nhello" = false := by
  decide

/-- Claim C10: in strict mode `validateTemplate` returns an empty warnings
list — every non-strict warning is appended to the errors instead — so a
strict result is never classified `valid-with-warnings`. -/
theorem strict_result_has_no_warnings (t : Template) :
    (Validator.validateTemplate t true).warnings = [] ∧
    (Validator.validateTemplate t true).errors =
      (Validator.validateTemplate t false).errors ++
        (Validator.validateTemplate t false).warnings ∧
    classify (Validator.validateTemplate t true) ≠ Classification.validWithWarnings := by
  have hW : (Validator.validateTemplate t true).warnings = [] := rfl
  refine ⟨hW, rfl, ?_⟩
  unfold classify
  rw [hW]
  by_cases hE : (Validator.validateTemplate t true).errors.isEmpty
  · simp [hE]
  · have hE' : (Validator.validateTemplate t true).errors.isEmpty = false := by
      simpa using hE
    simp [hE']

/-- Claim C4: validation classification is monotonic under strict mode — a
record invalid in non-strict mode stays invalid in strict mode, and no
record is classified as more valid in strict mode than in non-strict mode. -/
theorem strict_mode_monotone (t : Template) :
    (classify (Validator.validateTemplate t true)).rank ≤
      (classify (Validator.validateTemplate t false)).rank ∧
    (classify (Validator.validateTemplate t false) = Classification.invalid →
      classify (Validator.validateTemplate t true) = Classification.invalid) := by
  have hE : (Validator.validateTemplate t true).errors =
      (Validator.validateTemplate t false).errors ++
        (Validator.validateTemplate t false).warnings := rfl
  have hW : (Validator.validateTemplate t true).warnings = [] := rfl
  rcases hres : Validator.validateTemplate t false with ⟨v, E, W⟩
  rcases hres' : Validator.validateTemplate t true with ⟨v', E', W'⟩
  have hE' : E' = E ++ W := by rw [hres, hres'] at hE; exact hE
  have hW' : W' = [] := by rw [hres'] at hW; exact hW
  subst hE' hW'
  unfold classify
  cases E with
  | cons e E => simp [Classification.rank]
  | nil =>
    cases W with
    | nil => simp [Classification.rank]
    | cons w W => simp [Classification.rank]

/-- Claim C5: a template whose frontmatter is present with a truthy title, a
valid category, a valid difficulty and an empty tags array, and whose
structure flag is set, is classified `valid-with-warnings` in normal mode
and `invalid` in strict mode. -/
theorem empty_tags_warns_then_fails_strict (t : Template) (fm : TemplateFrontmatter)
    (hfm : t.frontmatter = some fm)
    (htitle : optTruthy fm.title = true)
    (hcat : ∃ c, fm.category = some c ∧ Validator.VALID_CATEGORIES.contains c = true)
    (htags : fm.tags = some (JsVal.arr []))
    (hdiff : ∃ d, fm.difficulty = some d ∧ Validator.VALID_DIFFICULTIES.contains d = true)
    (hstruct : t.hasValidStructure = true) :
    classify (Validator.validateTemplate t false) = Classification.validWithWarnings ∧
    classify (Validator.validateTemplate t true) = Classification.invalid := by
  obtain ⟨c, hc, hcmem⟩ := hcat
  obtain ⟨d, hd, hdmem⟩ := hdiff
  have hcval : c = "language" ∨ c = "framework" ∨ c = "role" := by
    simpa [Validator.VALID_CATEGORIES] using hcmem
  have hdval : d = "beginner" ∨ d = "intermediate" ∨ d = "advanced" := by
    simpa [Validator.VALID_DIFFICULTIES] using hdmem
  have hfr :
      Validator.validateFrontmatter t.frontmatter =
        { valid := true, errors := [],
          warnings := "Field \"tags\" is empty" ::
            ((if JsVal.truthy fm.requires && !JsVal.isArr fm.requires then
                ["Field \"requires\" should be an array"] else []) ++
             (if JsVal.truthy fm.combinableWith && !JsVal.isArr fm.combinableWith then
                ["Field \"combinableWith\" should be an array"] else [])) } := by
    rw [hfm]
    unfold Validator.validateFrontmatter
    rcases hcval with h | h | h <;> rcases hdval with h2 | h2 | h2 <;> subst h <;> subst h2 <;>
      simp [hc, hd, htags, htitle, optTruthy, JsVal.truthy, JsVal.isArr, JsVal.arrLen,
        Validator.VALID_CATEGORIES, Validator.VALID_DIFFICULTIES] <;>
      exact ⟨htitle, by decide, by decide⟩
  have hsr : Validator.validateStructure t = { valid := true, errors := [], warnings := [] } := by
    unfold Validator.validateStructure
    rw [hstruct]
    rfl
  constructor
  · show classify (Validator.validateTemplate t false) = _
    unfold Validator.validateTemplate
    rw [hfr, hsr]
    rfl
  · show classify (Validator.validateTemplate t true) = _
    unfold Validator.validateTemplate
    rw [hfr, hsr]
    rfl

/-- `tags.includes` returns normally exactly on present tags values, and
then agrees with the spec-side containment predicate. -/
theorem jsIncludes_ok {tags : Option JsVal} (h : tags.isSome = true) (s : String) :
    jsIncludes tags s = Except.ok (tagValueContains tags s) := by
  cases tags with
  | none => simp at h
  | some v => cases v <;> rfl

/-- A failed early-return guard `a && !p` means the criterion implication
`!a || p` holds. -/
theorem guard_false_or {a p : Bool} (h : (a && !p) = false) : (!a || p) = true := by
  cases a <;> cases p <;> simp_all

/-- On the no-throw domain the filter callback returns normally and computes
the spec's per-record predicate. -/
theorem filterCallback_ok (filters : Loader.Filters) (t : Template)
    (h : optTruthy filters.tag = true →
      ∀ fm, t.frontmatter = some fm → fm.tags.isSome = true) :
    Loader.filterCallback filters t =
      Except.ok (match t.frontmatter with
        | none => false
        | some fm => recordSatisfiesCriteria filters fm) := by
  revert h
  unfold Loader.filterCallback
  generalize t.frontmatter = o
  intro h
  cases o with
  | none => rfl
  | some fm =>
    have htags : optTruthy filters.tag = true → fm.tags.isSome = true :=
      fun ht => h ht fm rfl
    by_cases hcat : (optTruthy filters.category && !(fm.category == filters.category)) = true
    · have hcat' := hcat
      rw [Bool.and_eq_true] at hcat'
      obtain ⟨h1, h2⟩ := hcat'
      have h2' : (fm.category == filters.category) = false := by simpa using h2
      simp [hcat, recordSatisfiesCriteria, h1, h2']
    · have hcat0 : (optTruthy filters.category && !(fm.category == filters.category)) = false := by
        simpa using hcat
      have hcator := guard_false_or hcat0
      cases htg : optTruthy filters.tag with
      | false =>
        by_cases hdiff :
            (optTruthy filters.difficulty && !(fm.difficulty == filters.difficulty)) = true
        · have hdiff' := hdiff
          rw [Bool.and_eq_true] at hdiff'
          obtain ⟨d1, d2⟩ := hdiff'
          have d2' : (fm.difficulty == filters.difficulty) = false := by simpa using d2
          simp [hcat0, htg, hdiff, recordSatisfiesCriteria, hcator, d1, d2']
        · have hdiff0 :
              (optTruthy filters.difficulty && !(fm.difficulty == filters.difficulty)) = false := by
            simpa using hdiff
          simp [hcat0, htg, hdiff0, recordSatisfiesCriteria, hcator, guard_false_or hdiff0]
      | true =>
        have hsome := htags htg
        cases hinc : tagValueContains fm.tags (filters.tag.getD "") with
        | false =>
          simp [hcat0, htg, jsIncludes_ok hsome, hinc, recordSatisfiesCriteria]
        | true =>
          by_cases hdiff :
              (optTruthy filters.difficulty && !(fm.difficulty == filters.difficulty)) = true
          · have hdiff' := hdiff
            rw [Bool.and_eq_true] at hdiff'
            obtain ⟨d1, d2⟩ := hdiff'
            have d2' : (fm.difficulty == filters.difficulty) = false := by simpa using d2
            simp [hcat0, htg, jsIncludes_ok hsome, hinc, hdiff, recordSatisfiesCriteria,
              hcator, d1, d2']
          · have hdiff0 :
                (optTruthy filters.difficulty && !(fm.difficulty == filters.difficulty)) = false := by
              simpa using hdiff
            simp [hcat0, htg, jsIncludes_ok hsome, hinc, hdiff0, recordSatisfiesCriteria,
              hcator, guard_false_or hdiff0]

/-- A throwing filter whose callback returns normally on every element
computes an ordinary `List.filter`. -/
theorem filterExcept_ok {α : Type} (p : α → Except Unit Bool) (q : α → Bool)
    (l : List α) (h : ∀ x ∈ l, p x = Except.ok (q x)) :
    Loader.filterExcept p l = Except.ok (l.filter q) := by
  induction l with
  | nil => rfl
  | cons x xs ih =>
    have hx := h x (by simp)
    have ih' := ih (fun y hy => h y (by simp [hy]))
    unfold Loader.filterExcept
    rw [hx, ih', List.filter_cons]

/-- Claim C1 (amended): on the no-throw domain — whenever a tag criterion is
supplied, every record with metadata carries a tags value — `filterTemplates`
returns exactly the subset of records that have metadata and satisfy all
supplied criteria, in input order; a record with absent metadata is excluded
even when no criterion is supplied.  (Outside that domain the callback's
`tags.includes` throws a TypeError, which escapes the call.) -/
theorem filterTemplates_exact (templates : List Template) (filters : Loader.Filters)
    (hsafe : Loader.tagsSafe templates filters = true) :
    Loader.filterTemplates templates filters =
      Except.ok (templates.filter (fun t =>
        match t.frontmatter with
        | none => false
        | some fm => recordSatisfiesCriteria filters fm)) := by
  unfold Loader.filterTemplates
  apply filterExcept_ok
  intro t ht
  apply filterCallback_ok
  intro htag fm hfm
  unfold Loader.tagsSafe at hsafe
  rw [Bool.or_eq_true] at hsafe
  rcases hsafe with hs | hs
  · rw [htag] at hs; simp at hs
  · have hall := List.all_eq_true.mp hs t ht
    rw [hfm] at hall
    simpa using hall

/-- Claim C1 counterexample: with no criterion supplied, a record with
absent metadata is dropped, so `filterTemplates` does not return every
record. -/
theorem filterTemplates_counterexample :
    Loader.filterTemplates [Fixtures.tNoFrontmatter] {} = Except.ok [] ∧
    ([] : List Template) ≠ [Fixtures.tNoFrontmatter] := by
  constructor
  · rfl
  · decide

/-- Witness for C1 (amended) at a concrete catalog and tag criterion. -/
theorem filterTemplates_exact_witness :
    Loader.tagsSafe [Fixtures.tFrontend, Fixtures.tNoFrontmatter]
      (Loader.Filters.mk none (some "frontend") none) = true ∧
    Loader.filterTemplates [Fixtures.tFrontend, Fixtures.tNoFrontmatter]
      (Loader.Filters.mk none (some "frontend") none) = Except.ok [Fixtures.tFrontend] := by
  refine ⟨by decide, ?_⟩
  rw [filterTemplates_exact _ _ (by decide)]
  rfl

/-- A filter on a smaller predicate is a sublist of the filter on a larger
one. -/
theorem filter_sublist_of_imp {α : Type} (p q : α → Bool)
    (h : ∀ a, p a = true → q a = true) (l : List α) :
    (l.filter p).Sublist (l.filter q) := by
  induction l with
  | nil => simp
  | cons a l ih =>
    simp only [List.filter_cons]
    by_cases hp : p a = true
    · rw [hp, h a hp]
      simpa using ih.cons₂ a
    · have hp' : p a = false := by simpa using hp
      rw [hp']
      cases hq : q a
      · simpa using ih
      · simpa using ih.cons a

/-- Claim C6 counterexample: over a record whose metadata lacks a tags
value, filtering by the category alone returns the record, but adding a tag
criterion makes the callback throw a TypeError — the stricter call yields no
list at all, so it is not a subset of the looser result. -/
theorem filterTemplates_error_counterexample :
    Loader.filterTemplates [Fixtures.tNoTags]
      (Loader.Filters.mk (some "framework") none none) = Except.ok [Fixtures.tNoTags] ∧
    Loader.filterTemplates [Fixtures.tNoTags]
      (Loader.Filters.mk (some "framework") (some "frontend") none) = Except.error () := by
  constructor
  · rfl
  · rfl

/-- Claim C6 (amended): on the no-throw domain of the stricter filter,
filtering is a pure intersection — both calls return normally and the
stricter result is a sublist (hence subset) of the looser one. -/
theorem filterTemplates_antitone (templates : List Template) (f g : Loader.Filters)
    (hext : g.Extends f) (hsafe : Loader.tagsSafe templates g = true) :
    ∃ resg resf,
      Loader.filterTemplates templates g = Except.ok resg ∧
      Loader.filterTemplates templates f = Except.ok resf ∧
      resg.Sublist resf := by
  obtain ⟨hc, ht, hd⟩ := hext
  have hsafef : Loader.tagsSafe templates f = true := by
    unfold Loader.tagsSafe at hsafe ⊢
    rw [Bool.or_eq_true] at hsafe ⊢
    cases htf : optTruthy f.tag with
    | false => exact Or.inl rfl
    | true =>
      have htg : optTruthy g.tag = true := by rw [ht htf]; exact htf
      rcases hsafe with hs | hs
      · rw [htg] at hs; simp at hs
      · exact Or.inr hs
  refine ⟨_, _, filterTemplates_exact templates g hsafe,
    filterTemplates_exact templates f hsafef, ?_⟩
  apply filter_sublist_of_imp
  intro t hsat
  revert hsat
  generalize t.frontmatter = o
  intro hsat
  cases o with
  | none => exact absurd hsat (by simp)
  | some fm =>
    simp only [recordSatisfiesCriteria, Bool.and_eq_true, Bool.or_eq_true,
      Bool.not_eq_true'] at hsat ⊢
    have h1 := hsat.1.1
    have h2 := hsat.1.2
    have h3 := hsat.2
    refine ⟨⟨?_, ?_⟩, ?_⟩
    · rcases Bool.eq_false_or_eq_true (optTruthy f.category) with hfc | hfc
      · have hg := hc hfc
        rcases h1 with h1 | h1
        · rw [hg, hfc] at h1; cases h1
        · rw [hg] at h1; exact Or.inr h1
      · exact Or.inl hfc
    · rcases Bool.eq_false_or_eq_true (optTruthy f.tag) with hft | hft
      · have hg := ht hft
        rcases h2 with h2 | h2
        · rw [hg, hft] at h2; cases h2
        · rw [hg] at h2; exact Or.inr h2
      · exact Or.inl hft
    · rcases Bool.eq_false_or_eq_true (optTruthy f.difficulty) with hfd | hfd
      · have hg := hd hfd
        rcases h3 with h3 | h3
        · rw [hg, hfd] at h3; cases h3
        · rw [hg] at h3; exact Or.inr h3
      · exact Or.inl hfd

/-- Witness for C6 (amended) at a concrete catalog: filtering by category
`framework` and tag `frontend` yields a sublist of filtering by the
category alone, both calls returning normally. -/
theorem filterTemplates_antitone_witness :
    (Loader.Filters.mk (some "framework") (some "frontend") none).Extends
      (Loader.Filters.mk (some "framework") none none) ∧
    Loader.tagsSafe [Fixtures.tFrontend, Fixtures.tBackend]
      (Loader.Filters.mk (some "framework") (some "frontend") none) = true ∧
    ∃ resg resf,
      Loader.filterTemplates [Fixtures.tFrontend, Fixtures.tBackend]
        (Loader.Filters.mk (some "framework") (some "frontend") none) = Except.ok resg ∧
      Loader.filterTemplates [Fixtures.tFrontend, Fixtures.tBackend]
        (Loader.Filters.mk (some "framework") none none) = Except.ok resf ∧
      resg.Sublist resf :=
  ⟨by decide, by decide,
   filterTemplates_antitone [Fixtures.tFrontend, Fixtures.tBackend] _ _ (by decide) (by decide)⟩

/-- Witness for C4 at a concrete record that is invalid in non-strict mode
(no frontmatter and missing sections): it stays invalid in strict mode. -/
theorem strict_mode_monotone_witness :
    classify (Validator.validateTemplate Fixtures.tNoFrontmatter false) =
      Classification.invalid ∧
    classify (Validator.validateTemplate Fixtures.tNoFrontmatter true) =
      Classification.invalid :=
  ⟨by decide, (strict_mode_monotone Fixtures.tNoFrontmatter).2 (by decide)⟩

/-- Witness for C5 at a concrete record with an empty tags list. -/
theorem empty_tags_witness :
    classify (Validator.validateTemplate Fixtures.tEmptyTags false) =
      Classification.validWithWarnings ∧
    classify (Validator.validateTemplate Fixtures.tEmptyTags true) =
      Classification.invalid :=
  empty_tags_warns_then_fails_strict Fixtures.tEmptyTags Fixtures.fmEmptyTags rfl
    (by decide) ⟨"language", rfl, by decide⟩ rfl ⟨"beginner", rfl, by decide⟩ rfl

/-- `hasValidStructure` in terms of per-pattern line scans. -/
theorem hasValidStructure_flags (content : String) :
    Loader.hasValidStructure content =
      ((jsSplitNewline content).any (sectionTest rolePat) &&
       (jsSplitNewline content).any (sectionTest contextPat) &&
       (jsSplitNewline content).any (sectionTest layoutPat) &&
       (jsSplitNewline content).any (sectionTest standardsPat) &&
       (jsSplitNewline content).any (sectionTest workflowPat)) := by
  simp only [Loader.hasValidStructure, scanLines_role, scanLines_context, scanLines_layout,
    scanLines_standards, scanLines_workflow]

/-- `missingSections` in terms of per-pattern line scans. -/
theorem missingSections_flags (content : String) :
    CheckStructure.missingSections content =
      ((if (jsSplitNewline content).any (sectionTest rolePat) then [] else ["## Role / Identity"]) ++
       (if (jsSplitNewline content).any (sectionTest contextPat) then [] else ["## Context & Tech Stack"]) ++
       (if (jsSplitNewline content).any (sectionTest layoutPat) then [] else ["## Project Layout"]) ++
       (if (jsSplitNewline content).any (sectionTest standardsPat) then [] else ["## Coding Standards"]) ++
       (if (jsSplitNewline content).any (sectionTest workflowPat) then [] else ["## Workflow & Commands"])) := by
  simp only [CheckStructure.missingSections, scanLines_role, scanLines_context, scanLines_layout,
    scanLines_standards, scanLines_workflow]

/-- Claim C3: a document containing lines matching all five required heading
patterns (any order, any accepted case/spacing variant) is fully valid with
no missing sections; a document matching all patterns except one is invalid
and the validation output names exactly that heading as missing. -/
theorem structure_checker_headings (content : String) :
    ((∃ l ∈ jsSplitNewline content, sectionTest rolePat l = true) →
     (∃ l ∈ jsSplitNewline content, sectionTest contextPat l = true) →
     (∃ l ∈ jsSplitNewline content, sectionTest layoutPat l = true) →
     (∃ l ∈ jsSplitNewline content, sectionTest standardsPat l = true) →
     (∃ l ∈ jsSplitNewline content, sectionTest workflowPat l = true) →
      Loader.hasValidStructure content = true ∧
      CheckStructure.validateTemplate content = (true, [])) ∧
    ((¬ ∃ l ∈ jsSplitNewline content, sectionTest rolePat l = true) →
     (∃ l ∈ jsSplitNewline content, sectionTest contextPat l = true) →
     (∃ l ∈ jsSplitNewline content, sectionTest layoutPat l = true) →
     (∃ l ∈ jsSplitNewline content, sectionTest standardsPat l = true) →
     (∃ l ∈ jsSplitNewline content, sectionTest workflowPat l = true) →
      Loader.hasValidStructure content = false ∧
      CheckStructure.validateTemplate content = (false, ["## Role / Identity"])) ∧
    ((∃ l ∈ jsSplitNewline content, sectionTest rolePat l = true) →
     (¬ ∃ l ∈ jsSplitNewline content, sectionTest contextPat l = true) →
     (∃ l ∈ jsSplitNewline content, sectionTest layoutPat l = true) →
     (∃ l ∈ jsSplitNewline content, sectionTest standardsPat l = true) →
     (∃ l ∈ jsSplitNewline content, sectionTest workflowPat l = true) →
      Loader.hasValidStructure content = false ∧
      CheckStructure.validateTemplate content = (false, ["## Context & Tech Stack"])) ∧
    ((∃ l ∈ jsSplitNewline content, sectionTest rolePat l = true) →
     (∃ l ∈ jsSplitNewline content, sectionTest contextPat l = true) →
     (¬ ∃ l ∈ jsSplitNewline content, sectionTest layoutPat l = true) →
     (∃ l ∈ jsSplitNewline content, sectionTest standardsPat l = true) →
     (∃ l ∈ jsSplitNewline content, sectionTest workflowPat l = true) →
      Loader.hasValidStructure content = false ∧
      CheckStructure.validateTemplate content = (false, ["## Project Layout"])) ∧
    ((∃ l ∈ jsSplitNewline content, sectionTest rolePat l = true) →
     (∃ l ∈ jsSplitNewline content, sectionTest contextPat l = true) →
     (∃ l ∈ jsSplitNewline content, sectionTest layoutPat l = true) →
     (¬ ∃ l ∈ jsSplitNewline content, sectionTest standardsPat l = true) →
     (∃ l ∈ jsSplitNewline content, sectionTest workflowPat l = true) →
      Loader.hasValidStructure content = false ∧
      CheckStructure.validateTemplate content = (false, ["## Coding Standards"])) ∧
    ((∃ l ∈ jsSplitNewline content, sectionTest rolePat l = true) →
     (∃ l ∈ jsSplitNewline content, sectionTest contextPat l = true) →
     (∃ l ∈ jsSplitNewline content, sectionTest layoutPat l = true) →
     (∃ l ∈ jsSplitNewline content, sectionTest standardsPat l = true) →
     (¬ ∃ l ∈ jsSplitNewline content, sectionTest workflowPat l = true) →
      Loader.hasValidStructure content = false ∧
      CheckStructure.validateTemplate content = (false, ["## Workflow & Commands"])) := by
  refine ⟨?_, ?_, ?_, ?_, ?_, ?_⟩
  · intro h1 h2 h3 h4 h5
    have a1 : (jsSplitNewline content).any (sectionTest rolePat) = true :=
      List.any_eq_true.mpr h1
    have a2 : (jsSplitNewline content).any (sectionTest contextPat) = true :=
      List.any_eq_true.mpr h2
    have a3 : (jsSplitNewline content).any (sectionTest layoutPat) = true :=
      List.any_eq_true.mpr h3
    have a4 : (jsSplitNewline content).any (sectionTest standardsPat) = true :=
      List.any_eq_true.mpr h4
    have a5 : (jsSplitNewline content).any (sectionTest workflowPat) = true :=
      List.any_eq_true.mpr h5
    constructor
    · rw [hasValidStructure_flags, a1, a2, a3, a4, a5]
      decide
    · unfold CheckStructure.validateTemplate
      rw [missingSections_flags, a1, a2, a3, a4, a5]
      decide
  · intro h1 h2 h3 h4 h5
    have a1 : (jsSplitNewline content).any (sectionTest rolePat) = false := by
      cases hx : (jsSplitNewline content).any (sectionTest rolePat) with
      | false => rfl
      | true => exact absurd (List.any_eq_true.mp hx) h1
    have a2 : (jsSplitNewline content).any (sectionTest contextPat) = true :=
      List.any_eq_true.mpr h2
    have a3 : (jsSplitNewline content).any (sectionTest layoutPat) = true :=
      List.any_eq_true.mpr h3
    have a4 : (jsSplitNewline content).any (sectionTest standardsPat) = true :=
      List.any_eq_true.mpr h4
    have a5 : (jsSplitNewline content).any (sectionTest workflowPat) = true :=
      List.any_eq_true.mpr h5
    constructor
    · rw [hasValidStructure_flags, a1, a2, a3, a4, a5]
      decide
    · unfold CheckStructure.validateTemplate
      rw [missingSections_flags, a1, a2, a3, a4, a5]
      decide
  · intro h1 h2 h3 h4 h5
    have a1 : (jsSplitNewline content).any (sectionTest rolePat) = true :=
      List.any_eq_true.mpr h1
    have a2 : (jsSplitNewline content).any (sectionTest contextPat) = false := by
      cases hx : (jsSplitNewline content).any (sectionTest contextPat) with
      | false => rfl
      | true => exact absurd (List.any_eq_true.mp hx) h2
    have a3 : (jsSplitNewline content).any (sectionTest layoutPat) = true :=
      List.any_eq_true.mpr h3
    have a4 : (jsSplitNewline content).any (sectionTest standardsPat) = true :=
      List.any_eq_true.mpr h4
    have a5 : (jsSplitNewline content).any (sectionTest workflowPat) = true :=
      List.any_eq_true.mpr h5
    constructor
    · rw [hasValidStructure_flags, a1, a2, a3, a4, a5]
      decide
    · unfold CheckStructure.validateTemplate
      rw [missingSections_flags, a1, a2, a3, a4, a5]
      decide
  · intro h1 h2 h3 h4 h5
    have a1 : (jsSplitNewline content).any (sectionTest rolePat) = true :=
      List.any_eq_true.mpr h1
    have a2 : (jsSplitNewline content).any (sectionTest contextPat) = true :=
      List.any_eq_true.mpr h2
    have a3 : (jsSplitNewline content).any (sectionTest layoutPat) = false := by
      cases hx : (jsSplitNewline content).any (sectionTest layoutPat) with
      | false => rfl
      | true => exact absurd (List.any_eq_true.mp hx) h3
    have a4 : (jsSplitNewline content).any (sectionTest standardsPat) = true :=
      List.any_eq_true.mpr h4
    have a5 : (jsSplitNewline content).any (sectionTest workflowPat) = true :=
      List.any_eq_true.mpr h5
    constructor
    · rw [hasValidStructure_flags, a1, a2, a3, a4, a5]
      decide
    · unfold CheckStructure.validateTemplate
      rw [missingSections_flags, a1, a2, a3, a4, a5]
      decide
  · intro h1 h2 h3 h4 h5
    have a1 : (jsSplitNewline content).any (sectionTest rolePat) = true :=
      List.any_eq_true.mpr h1
    have a2 : (jsSplitNewline content).any (sectionTest contextPat) = true :=
      List.any_eq_true.mpr h2
    have a3 : (jsSplitNewline content).any (sectionTest layoutPat) = true :=
      List.any_eq_true.mpr h3
    have a4 : (jsSplitNewline content).any (sectionTest standardsPat) = false := by
      cases hx : (jsSplitNewline content).any (sectionTest standardsPat) with
      | false => rfl
      | true => exact absurd (List.any_eq_true.mp hx) h4
    have a5 : (jsSplitNewline content).any (sectionTest workflowPat) = true :=
      List.any_eq_true.mpr h5
    constructor
    · rw [hasValidStructure_flags, a1, a2, a3, a4, a5]
      decide
    · unfold CheckStructure.validateTemplate
      rw [missingSections_flags, a1, a2, a3, a4, a5]
      decide
  · intro h1 h2 h3 h4 h5
    have a1 : (jsSplitNewline content).any (sectionTest rolePat) = true :=
      List.any_eq_true.mpr h1
    have a2 : (jsSplitNewline content).any (sectionTest contextPat) = true :=
      List.any_eq_true.mpr h2
    have a3 : (jsSplitNewline content).any (sectionTest layoutPat) = true :=
      List.any_eq_true.mpr h3
    have a4 : (jsSplitNewline content).any (sectionTest standardsPat) = true :=
      List.any_eq_true.mpr h4
    have a5 : (jsSplitNewline content).any (sectionTest workflowPat) = false := by
      cases hx : (jsSplitNewline content).any (sectionTest workflowPat) with
      | false => rfl
      | true => exact absurd (List.any_eq_true.mp hx) h5
    constructor
    · rw [hasValidStructure_flags, a1, a2, a3, a4, a5]
      decide
    · unfold CheckStructure.validateTemplate
      rw [missingSections_flags, a1, a2, a3, a4, a5]
      decide

/-- Witness for C3: a document whose five headings use varied case and
spacing is fully valid; dropping the `## Project Layout` line makes the
checker report exactly that heading as missing. -/
theorem structure_checker_headings_witness :
    Loader.hasValidStructure
      "## role/identity\n##   Context&Tech Stack\n## PROJECT LAYOUT\n##\tCoding   Standards\n## Workflow & Commands" = true ∧
    CheckStructure.validateTemplate
      "## role/identity\n##   Context&Tech Stack\n##\tCoding   Standards\n## Workflow & Commands" =
      (false, ["## Project Layout"]) :=
  ⟨((structure_checker_headings
      "## role/identity\n##   Context&Tech Stack\n## PROJECT LAYOUT\n##\tCoding   Standards\n## Workflow & Commands").1
      (by decide) (by decide) (by decide) (by decide) (by decide)).1,
   ((structure_checker_headings
      "## role/identity\n##   Context&Tech Stack\n##\tCoding   Standards\n## Workflow & Commands").2.2.2.1
      (by decide) (by decide) (by decide) (by decide) (by decide)).2⟩

/-- Two lists with the same membership yield the same `any`. -/
theorem any_eq_of_mem_iff {α : Type} (p : α → Bool) {l₁ l₂ : List α}
    (h : ∀ x, x ∈ l₁ ↔ x ∈ l₂) : l₁.any p = l₂.any p := by
  cases h1 : l₁.any p with
  | true =>
    obtain ⟨x, hx, hpx⟩ := List.any_eq_true.mp h1
    exact (List.any_eq_true.mpr ⟨x, (h x).mp hx, hpx⟩).symm
  | false =>
    cases h2 : l₂.any p with
    | false => rfl
    | true =>
      obtain ⟨x, hx, hpx⟩ := List.any_eq_true.mp h2
      have := List.any_eq_true.mpr ⟨x, (h x).mpr hx, hpx⟩
      rw [h1] at this
      cases this

/-- The structure check only depends on which lines occur in the document. -/
theorem hasValidStructure_congr {c₁ c₂ : String}
    (h : ∀ x, x ∈ jsSplitNewline c₁ ↔ x ∈ jsSplitNewline c₂) :
    Loader.hasValidStructure c₁ = Loader.hasValidStructure c₂ := by
  rw [hasValidStructure_flags, hasValidStructure_flags,
    any_eq_of_mem_iff _ h, any_eq_of_mem_iff _ h, any_eq_of_mem_iff _ h,
    any_eq_of_mem_iff _ h, any_eq_of_mem_iff _ h]

/-- Claim C9: the structure check is insensitive to line order and line
duplication — permuting a document's lines preserves the result, and
duplicating any line preserves the result (a heading repeated twice still
counts as found). -/
theorem structure_checker_line_invariance (c₁ c₂ : String) :
    ((jsSplitNewline c₁).Perm (jsSplitNewline c₂) →
      Loader.hasValidStructure c₁ = Loader.hasValidStructure c₂) ∧
    (∀ pre x suf, jsSplitNewline c₁ = pre ++ x :: suf →
      jsSplitNewline c₂ = pre ++ x :: x :: suf →
      Loader.hasValidStructure c₂ = Loader.hasValidStructure c₁) := by
  constructor
  · intro hp
    exact hasValidStructure_congr (fun x => hp.mem_iff)
  · intro pre x suf h1 h2
    apply hasValidStructure_congr
    intro y
    rw [h1, h2]
    simp only [List.mem_append, List.mem_cons]
    tauto

/-- Witness for C9: swapping two lines preserves the check, and duplicating
a line preserves the check. -/
theorem structure_checker_line_invariance_witness :
    Loader.hasValidStructure "## x\nabc" = Loader.hasValidStructure "abc\n## x" ∧
    Loader.hasValidStructure "abc\nabc\nd" = Loader.hasValidStructure "abc\nd" :=
  ⟨(structure_checker_line_invariance "## x\nabc" "abc\n## x").1
      (List.Perm.swap "abc" "## x" []),
   (structure_checker_line_invariance "abc\nd" "abc\nabc\nd").2 [] "abc" ["d"] rfl rfl⟩

/-- The source's first-colon scan agrees with the spec's "split at the first
colon". -/
theorem colonSplit_eq (cs : List Char) :
    ValidateYaml.colonSplit cs = splitAtFirstColon cs := by
  induction cs with
  | nil => simp [ValidateYaml.colonSplit, splitAtFirstColon]
  | cons c rest ih =>
    by_cases hc : c = ':'
    · subst hc
      simp [ValidateYaml.colonSplit, splitAtFirstColon]
    · by_cases hm : ':' ∈ rest
      · simp [ValidateYaml.colonSplit, splitAtFirstColon, hc, hm, ih, Ne.symm hc,
          List.takeWhile_cons, List.dropWhile_cons]
      · simp [ValidateYaml.colonSplit, splitAtFirstColon, hc, hm, ih, Ne.symm hc]

/-- Claim C2: the fallback frontmatter parser processes the block line by
line — each line contributes the entry described by the spec (split at the
first colon, trimmed key, trimmed and quote-stripped or list-parsed value),
a line without a colon contributes nothing, and (being a total function)
the parser never raises for any input string. -/
theorem fallback_parser_line_by_line (yamlString : String) :
    ValidateYaml.parseFrontmatterFallback yamlString =
      ((jsSplitNewline yamlString).filterMap lineEntry).foldl
        (fun data kv => ValidateYaml.jsObjSet data kv.1 kv.2) [] := by
  unfold ValidateYaml.parseFrontmatterFallback
  have main : ∀ (lines : List String) (acc : List (String × JsVal)),
      lines.foldl
        (fun data line =>
          match ValidateYaml.colonSplit line.data with
          | none => data
          | some (before, after) =>
            ValidateYaml.jsObjSet data (jsTrim (String.mk before))
              (ValidateYaml.parseLineValue (jsTrim (String.mk after)))) acc =
      (lines.filterMap lineEntry).foldl
        (fun data kv => ValidateYaml.jsObjSet data kv.1 kv.2) acc := by
    intro lines
    induction lines with
    | nil => intro acc; rfl
    | cons l ls ih =>
      intro acc
      rw [List.foldl_cons, List.filterMap_cons]
      rcases h : splitAtFirstColon l.data with _ | ⟨b, a⟩
      · have hcs : ValidateYaml.colonSplit l.data = none := by rw [colonSplit_eq]; exact h
        have hle : lineEntry l = none := by simp [lineEntry, h]
        simp only [hcs, hle]
        exact ih acc
      · have hcs : ValidateYaml.colonSplit l.data = some (b, a) := by rw [colonSplit_eq]; exact h
        have hle : lineEntry l =
            some (jsTrim (String.mk b), ValidateYaml.parseLineValue (jsTrim (String.mk a))) := by
          simp [lineEntry, h]
        simp only [hcs, hle]
        exact ih _
  exact main _ []

/-- If `".md"` is not a prefix of `c :: rest`, it is still not a prefix
after appending `".md"` at the end (the pattern `".md"` cannot overlap
itself across the boundary). -/
theorem md_prefix_append (c : Char) (rest : List Char)
    (h : List.isPrefixOf ".md".data (c :: rest) = false) :
    List.isPrefixOf ".md".data (c :: (rest ++ ".md".data)) = false := by
  by_cases hc : c = '.'
  · subst hc
    cases rest with
    | nil => decide
    | cons c2 rest2 =>
      by_cases hc2 : c2 = 'm'
      · subst hc2
        cases rest2 with
        | nil => decide
        | cons c3 rest3 =>
          simp [List.isPrefixOf, String.data] at h ⊢
          exact h
      · have h2 : ('m' == c2) = false := beq_eq_false_iff_ne.mpr (fun hx => hc2 hx.symm)
        simp [List.isPrefixOf, String.data, h2]
  · have h1 : ('.' == c) = false := beq_eq_false_iff_ne.mpr (fun hx => hc hx.symm)
    simp [List.isPrefixOf, String.data, h1]

/-- Removing the first `".md"` occurrence from `cs ++ ".md"` gives back `cs`
when `cs` itself contains no `".md"`. -/
theorem replaceFirst_strips_extension (cs : List Char)
    (h : listContainsSub ".md".data cs = false) :
    Loader.jsReplaceFirstList ".md".data "".data (cs ++ ".md".data) = cs := by
  induction cs with
  | nil => decide
  | cons c rest ih =>
    have h' : List.isPrefixOf ".md".data (c :: rest) = false ∧
        listContainsSub ".md".data rest = false := by
      simpa [listContainsSub] using h
    have hpre := md_prefix_append c rest h'.1
    rw [show (c :: rest) ++ ".md".data = c :: (rest ++ ".md".data) from rfl]
    unfold Loader.jsReplaceFirstList
    rw [hpre]
    simp only [Bool.false_eq_true, if_false]
    exact congrArg (fun l => c :: l) (ih h'.2)

/-- Claim C8 (amended): `loadTemplate` sets `id` to the filename with the
first occurrence of `".md"` removed; when `".md"` occurs only as the final
extension, this is exactly the base name with the extension stripped. -/
theorem loadTemplate_id_strips_extension
    (parse : String → Option TemplateFrontmatter) (filePath content base : String)
    (hname : Loader.basename filePath = base ++ ".md")
    (hbase : listContainsSub ".md".data base.data = false) :
    (Loader.loadTemplate parse filePath content).id = base := by
  show Loader.jsReplaceFirst (Loader.basename filePath) ".md" "" = base
  rw [hname]
  unfold Loader.jsReplaceFirst
  rw [show (base ++ ".md").data = base.data ++ ".md".data from rfl,
    replaceFirst_strips_extension base.data hbase]

/-- Claim C8 counterexample: for the filename `a.mdb.md`, JavaScript's
`filename.replace('.md', '')` removes the first `".md"` occurrence, giving
`ab.md`, not the extension-stripped `a.mdb`. -/
theorem loadTemplate_id_counterexample :
    (Loader.loadTemplate (fun _ => none) "templates/a.mdb.md" "").id = "ab.md" ∧
    ("ab.md" : String) ≠ "a.mdb" := by
  constructor
  · decide
  · decide

/-- Witness for C8 (amended) at an actual repository filename. -/
theorem loadTemplate_id_witness :
    Loader.basename "templates/languages/python.md" = "python" ++ ".md" ∧
    listContainsSub ".md".data ("python" : String).data = false ∧
    (Loader.loadTemplate (fun _ => none) "templates/languages/python.md" "").id = "python" :=
  ⟨by decide, by decide,
   loadTemplate_id_strips_extension (fun _ => none) _ "" "python" (by decide) (by decide)⟩

/-- Every element of `takeWhile p` satisfies `p`. -/
theorem mem_takeWhile_prop {p : Char → Bool} :
    ∀ {cs : List Char} {x : Char}, x ∈ cs.takeWhile p → p x = true := by
  intro cs
  induction cs with
  | nil => intro x hx; simp at hx
  | cons c t ih =>
    intro x hx
    rw [List.takeWhile_cons] at hx
    cases hpc : p c with
    | false => rw [hpc] at hx; simp at hx
    | true =>
      rw [hpc] at hx
      cases hx with
      | head => exact hpc
      | tail _ hmem => exact ih hmem

/-- A take that stays inside the `takeWhile` region satisfies `p`
elementwise. -/
theorem take_takeWhile_mem {p : Char → Bool} :
    ∀ (cs : List Char) (j : Nat), j < (cs.takeWhile p).length →
      ∀ x ∈ cs.take j, p x = true := by
  intro cs
  induction cs with
  | nil => intro j hj x hx; simp at hx
  | cons c t ih =>
    intro j hj x hx
    cases j with
    | zero => simp at hx
    | succ j' =>
      rw [List.takeWhile_cons] at hj
      cases hpc : p c with
      | false => rw [hpc] at hj; simp at hj
      | true =>
        simp only [hpc, if_true, List.length_cons, Nat.succ_lt_succ_iff] at hj
        rw [List.take_succ_cons] at hx
        cases hx with
        | head => exact hpc
        | tail _ hmem => exact ih j' hj x hmem

/-- The whitespace run of `w ++ '\n' :: tail` covers at least `w` and the
newline when `w` is all whitespace. -/
theorem takeWhile_length_append (w tail : List Char)
    (hw : ∀ c ∈ w, isJsSpace c = true) :
    w.length + 1 ≤ ((w ++ '\n' :: tail).takeWhile isJsSpace).length := by
  induction w with
  | nil =>
    rw [List.nil_append, List.takeWhile_cons, if_pos (by decide : isJsSpace '\n' = true)]
    simp
  | cons c w ih =>
    have hc : isJsSpace c = true := hw c (by simp)
    have ih' := ih (fun x hx => hw x (by simp [hx]))
    simp only [List.cons_append, List.takeWhile_cons, hc, if_true, List.length_cons]
    omega

/-- `get?` at the end of the whitespace run hits the newline. -/
theorem get?_append_newline (w tail : List Char) :
    (w ++ '\n' :: tail).get? w.length = some '\n' := by
  rw [List.get?_append_right (Nat.le_refl _)]
  simp

/-- `drop` past the newline returns the tail. -/
theorem drop_append_newline (w tail : List Char) :
    (w ++ '\n' :: tail).drop (w.length + 1) = tail := by
  rw [show w ++ '\n' :: tail = (w ++ ['\n']) ++ tail by simp,
    show w.length + 1 = (w ++ ['\n']).length by simp]
  exact List.drop_left _ _

/-- Completeness of the opening-delimiter backtracking: each decomposition
into a whitespace run and a newline is a candidate remainder. -/
theorem openRemainders_complete (w tail : List Char)
    (hw : ∀ c ∈ w, isJsSpace c = true) :
    tail ∈ Loader.openRemainders (w ++ '\n' :: tail) := by
  unfold Loader.openRemainders
  rw [List.mem_filterMap]
  refine ⟨w.length, ?_, ?_⟩
  · rw [List.mem_reverse, List.mem_range]
    have := takeWhile_length_append w tail hw
    omega
  · rw [get?_append_newline]
    simp [drop_append_newline]

/-- Soundness of the opening-delimiter backtracking: every candidate
remainder comes from a whitespace run followed by a newline. -/
theorem openRemainders_sound {cs rem : List Char}
    (h : rem ∈ Loader.openRemainders cs) :
    ∃ w, (∀ c ∈ w, isJsSpace c = true) ∧ cs = w ++ '\n' :: rem := by
  unfold Loader.openRemainders at h
  rw [List.mem_filterMap] at h
  obtain ⟨j, hj, hf⟩ := h
  rw [List.mem_reverse, List.mem_range] at hj
  by_cases hg : cs.get? j = some '\n'
  · refine ⟨cs.take j, fun c hc => take_takeWhile_mem cs j hj c hc, ?_⟩
    rw [if_pos hg] at hf
    obtain ⟨hjlen, hget⟩ := List.get?_eq_some.mp hg
    have hdrop : cs.drop j = '\n' :: cs.drop (j + 1) := by
      rw [List.drop_eq_get_cons hjlen, hget]
    calc cs = cs.take j ++ cs.drop j := (List.take_append_drop j cs).symm
      _ = cs.take j ++ '\n' :: rem := by
        rw [hdrop]
        injection hf with hf'
        rw [hf']
  · rw [if_neg hg] at hf
    cases hf

/-- Completeness of the closing `\s*\n` check. -/
theorem closeTail_complete (w tail : List Char)
    (hw : ∀ c ∈ w, isJsSpace c = true) :
    Loader.closeTailMatches (w ++ '\n' :: tail) = true := by
  unfold Loader.closeTailMatches
  induction w with
  | nil =>
    simp [List.takeWhile_cons, show isJsSpace '\n' = true from by decide]
  | cons c w ih =>
    have hc : isJsSpace c = true := hw c (by simp)
    have ih' := ih (fun x hx => hw x (by simp [hx]))
    simp only [List.cons_append, List.takeWhile_cons, hc, if_true, List.contains_cons]
    rw [Bool.or_eq_true]
    exact Or.inr ih'

/-- Soundness of the closing `\s*\n` check. -/
theorem closeTail_sound :
    ∀ {r : List Char}, Loader.closeTailMatches r = true →
      ∃ w₂ rest₂, (∀ c ∈ w₂, isJsSpace c = true) ∧ r = w₂ ++ '\n' :: rest₂ := by
  intro r
  induction r with
  | nil => intro h; simp [Loader.closeTailMatches] at h
  | cons c t ih =>
    intro h
    by_cases hcn : c = '\n'
    · subst hcn
      exact ⟨[], t, by simp, rfl⟩
    · have hcs : isJsSpace c = true := by
        by_contra hx
        have hx' : isJsSpace c = false := by simpa using hx
        simp [Loader.closeTailMatches, List.takeWhile_cons, hx'] at h
      have hbeq : ('\n' == c) = false := beq_eq_false_iff_ne.mpr (fun hx => hcn hx.symm)
      have ht : Loader.closeTailMatches t = true := by
        simp only [Loader.closeTailMatches, List.takeWhile_cons, hcs, if_true,
          List.contains_cons, hbeq, Bool.false_or] at h
        exact h
      obtain ⟨w₂, r₂, hw, he⟩ := ih ht
      refine ⟨c :: w₂, r₂, ?_, by simp [he]⟩
      intro x hx
      rcases List.mem_cons.mp hx with rfl | hx'
      · exact hcs
      · exact hw x hx'

/-- The closing-delimiter matcher accepts exactly `\n---` followed by a
whitespace run containing a newline. -/
theorem matchClose_iff (cs : List Char) :
    Loader.matchClose cs = true ↔
      ∃ r, cs = '\n' :: '-' :: '-' :: '-' :: r ∧ Loader.closeTailMatches r = true := by
  constructor
  · intro h
    rcases cs with _ | ⟨c1, _ | ⟨c2, _ | ⟨c3, _ | ⟨c4, rest⟩⟩⟩⟩
    · exact absurd h (by simp [Loader.matchClose])
    · exact absurd h (by simp [Loader.matchClose])
    · exact absurd h (by simp [Loader.matchClose])
    · exact absurd h (by simp [Loader.matchClose])
    · unfold Loader.matchClose at h
      simp only [Bool.and_eq_true, beq_iff_eq] at h
      obtain ⟨⟨⟨⟨h1, h2⟩, h3⟩, h4⟩, h5⟩ := h
      subst h1; subst h2; subst h3; subst h4
      exact ⟨rest, rfl, h5⟩
  · rintro ⟨r, rfl, hr⟩
    simp [Loader.matchClose, hr]

/-- Completeness of the lazy capture search: if some split of `cs` admits
the closing delimiter, a capture is found. -/
theorem findCapture_complete (cap r : List Char)
    (hr : Loader.closeTailMatches r = true) :
    (Loader.findCapture (cap ++ '\n' :: '-' :: '-' :: '-' :: r)).isSome = true := by
  induction cap with
  | nil =>
    rw [List.nil_append]
    unfold Loader.findCapture
    rw [if_pos ((matchClose_iff _).mpr ⟨r, rfl, hr⟩)]
    rfl
  | cons c cap ih =>
    rw [List.cons_append]
    unfold Loader.findCapture
    by_cases hm : Loader.matchClose (c :: (cap ++ '\n' :: '-' :: '-' :: '-' :: r)) = true
    · rw [if_pos hm]
      rfl
    · rw [if_neg hm]
      show ((Loader.findCapture (cap ++ '\n' :: '-' :: '-' :: '-' :: r)).map
        (fun l => c :: l)).isSome = true
      cases ho : Loader.findCapture (cap ++ '\n' :: '-' :: '-' :: '-' :: r) with
      | none => simp [ho] at ih
      | some v => rfl

/-- Soundness of the lazy capture search: a found capture really is followed
by the closing delimiter. -/
theorem findCapture_sound :
    ∀ {cs cap : List Char}, Loader.findCapture cs = some cap →
      ∃ r, cs = cap ++ '\n' :: '-' :: '-' :: '-' :: r ∧
        Loader.closeTailMatches r = true := by
  intro cs
  induction cs with
  | nil =>
    intro cap h
    simp [Loader.findCapture, Loader.matchClose] at h
  | cons c rest ih =>
    intro cap h
    unfold Loader.findCapture at h
    by_cases hm : Loader.matchClose (c :: rest) = true
    · rw [if_pos hm] at h
      have hcap : cap = [] := by injection h with h'; exact h'.symm
      subst hcap
      obtain ⟨r, hshape, hr⟩ := (matchClose_iff _).mp hm
      exact ⟨r, by simp [hshape], hr⟩
    · rw [if_neg hm] at h
      replace h : (Loader.findCapture rest).map (fun l => c :: l) = some cap := h
      rw [Option.map_eq_some'] at h
      obtain ⟨cap', hfc, hmap⟩ := h
      obtain ⟨r, hshape, hr⟩ := ih hfc
      refine ⟨r, ?_, hr⟩
      rw [← hmap, hshape]
      rfl

/-- Soundness of the top-level regex match. -/
theorem extractList_sound {cs cap : List Char}
    (h : Loader.extractList cs = some cap) :
    ∃ rest rem, cs = '-' :: '-' :: '-' :: rest ∧ rem ∈ Loader.openRemainders rest ∧
      Loader.findCapture rem = some cap := by
  rcases cs with _ | ⟨c1, _ | ⟨c2, _ | ⟨c3, rest⟩⟩⟩
  · simp [Loader.extractList] at h
  · simp [Loader.extractList] at h
  · simp [Loader.extractList] at h
  · replace h :
        (if (c1 == '-' && c2 == '-' && c3 == '-') = true then
          List.findSome? Loader.findCapture (Loader.openRemainders rest)
        else none) = some cap := h
    by_cases hc : (c1 == '-' && c2 == '-' && c3 == '-') = true
    · rw [if_pos hc] at h
      simp only [Bool.and_eq_true, beq_iff_eq] at hc
      obtain ⟨⟨h1, h2⟩, h3⟩ := hc
      subst h1; subst h2; subst h3
      obtain ⟨rem, hrem, hf⟩ := List.exists_of_findSome?_eq_some h
      exact ⟨rest, rem, rfl, hrem, hf⟩
    · rw [if_neg hc] at h
      cases h

/-- Completeness of the top-level regex match. -/
theorem extractList_complete (w1 b w2 rest2 : List Char)
    (hw1 : ∀ c ∈ w1, isJsSpace c = true) (hw2 : ∀ c ∈ w2, isJsSpace c = true) :
    (Loader.extractList
      ('-' :: '-' :: '-' ::
        (w1 ++ '\n' :: (b ++ '\n' :: '-' :: '-' :: '-' :: (w2 ++ '\n' :: rest2))))).isSome =
      true := by
  rw [show Loader.extractList
      ('-' :: '-' :: '-' ::
        (w1 ++ '\n' :: (b ++ '\n' :: '-' :: '-' :: '-' :: (w2 ++ '\n' :: rest2)))) =
      (Loader.openRemainders
        (w1 ++ '\n' :: (b ++ '\n' :: '-' :: '-' :: '-' :: (w2 ++ '\n' :: rest2)))).findSome?
        Loader.findCapture from rfl]
  have hmem := openRemainders_complete w1
    (b ++ '\n' :: '-' :: '-' :: '-' :: (w2 ++ '\n' :: rest2)) hw1
  have hcap := findCapture_complete b (w2 ++ '\n' :: rest2) (closeTail_complete w2 rest2 hw2)
  cases hfs : (Loader.openRemainders
      (w1 ++ '\n' :: (b ++ '\n' :: '-' :: '-' :: '-' :: (w2 ++ '\n' :: rest2)))).findSome?
      Loader.findCapture with
  | some v => rfl
  | none =>
    have hnone := List.findSome?_eq_none.mp hfs _ hmem
    rw [hnone] at hcap
    simp at hcap

/-- Claim C7 (amended): frontmatter extraction returns absent exactly for
documents that do not match the delimiter pattern, where the opening and
closing `---` lines may carry trailing whitespace (and the opening run may
span blank lines); extraction is a total function, so it never raises, and
absence is reported as `none`, not an error. -/
theorem extractFrontmatter_absent_iff (content : String) :
    Loader.extractFrontmatter content = none ↔ ¬ FrontmatterShape content := by
  unfold Loader.extractFrontmatter
  rw [Option.map_eq_none']
  constructor
  · intro hn hs
    obtain ⟨w1, b, w2, rest, hw1, hw2, hdata⟩ := hs
    have hc := extractList_complete w1 b w2 rest hw1 hw2
    rw [← hdata, hn] at hc
    simp at hc
  · intro hns
    cases he : Loader.extractList content.data with
    | none => rfl
    | some cap =>
      exfalso
      apply hns
      obtain ⟨rest, rem, hshape, hrem, hf⟩ := extractList_sound he
      obtain ⟨w1, hw1, hrest⟩ := openRemainders_sound hrem
      obtain ⟨r, hrem2, hr⟩ := findCapture_sound hf
      obtain ⟨w2, rest2, hw2, hr2⟩ := closeTail_sound hr
      refine ⟨w1, cap, w2, rest2, hw1, hw2, ?_⟩
      rw [hshape, hrest, hrem2, hr2]

/-- Claim C7 counterexample: a document whose delimiter lines carry trailing
spaces — so it does not begin with a line containing only `---` — still
yields extracted frontmatter, because the regex accepts `---\s*`. -/
theorem extractFrontmatter_counterexample :
    (jsSplitNewline "---  \ntitle: x\n---  \nrest").head? = some "---  " ∧
    ("---  " : String) ≠ "---" ∧
    Loader.extractFrontmatter "---  \ntitle: x\n---  \nrest" = some "title: x" := by
  refine ⟨by decide, by decide, by decide⟩

/-- Witness for C7 (amended): a plain document without delimiters yields no
frontmatter, hence does not match the delimiter shape. -/
theorem extractFrontmatter_absent_witness :
    ¬ FrontmatterShape "# just a doc" :=
  (extractFrontmatter_absent_iff "# just a doc").mp (by decide)
